import Mathlib

/-!
Verification of the capture/adjust/publish pipeline of the cctv repository.

The definitions below are a shallow embedding of `webcam_server.py` and
`webcam.py`:
* pixel arithmetic models `cv2.convertScaleAbs` (scale, absolute value,
  round to nearest with ties to even, saturate to 8 bit) and
  `cv2.cvtColor` BGR2GRAY / GRAY2BGR (fixed-point luminance, re-expanded
  to three equal channels);
* `adjust` models the night-mode branch and the brightness/contrast
  transform of `capture_frames` (webcam_server.py lines 104-120) and
  `main` (webcam.py lines 106-113);
* setters, snapshot capture, the stream generator, the publish-slot
  interleaving model and the two capture loops follow afterwards.

In this program the `beta` argument of `cv2.convertScaleAbs` is always the
integer `brightness * 2`, so the embedding takes it as an integer; `alpha`
(the contrast) is an arbitrary rational. The executable form works on the
numerator and denominator of the contrast so that concrete inputs can be
evaluated by the kernel; `convertScaleAbsPix_eq_round` relates it to the
rational-valued rounding formula used in the statements.
-/

namespace Cctv

set_option maxRecDepth 8000

/-- Mathematical form of OpenCV `cvRound`: round a rational to the nearest
integer, ties to even (the rounding of `saturate_cast<uchar>` on floats). -/
def cvRoundQ (q : ℚ) : ℤ :=
  if q - ⌊q⌋ < 1/2 then ⌊q⌋
  else if 1/2 < q - ⌊q⌋ then ⌊q⌋ + 1
  else if ⌊q⌋ % 2 = 0 then ⌊q⌋ else ⌊q⌋ + 1

/-- Executable round-half-to-even of the nonnegative fraction `n / d`. -/
def cvRoundNat (n d : ℕ) : ℕ :=
  if 2 * (n % d) < d then n / d
  else if d < 2 * (n % d) then n / d + 1
  else if n / d % 2 = 0 then n / d else n / d + 1

/-- One channel of `cv2.convertScaleAbs(src, alpha, beta)`:
`saturate_cast<uchar>(|src*alpha + beta|)` (webcam_server.py line 120,
webcam.py line 113), computed on the numerator and denominator of `alpha`
so that the kernel can evaluate it; the `max 0` half of the saturation is
vacuous because of the absolute value. -/
def convertScaleAbsPix (a : ℚ) (b : ℤ) (x : ℕ) : ℕ :=
  min 255 (cvRoundNat ((x : ℤ) * a.num + b * (a.den : ℤ)).natAbs a.den)

/-- A pixel: three 8-bit channels in BGR order, as unbounded naturals with
validity tracked separately. -/
abbrev Pixel := ℕ × ℕ × ℕ

/-- A frame: a sequence of pixels (row-major flattening is irrelevant to
the per-pixel claims). -/
abbrev Frame := List Pixel

/-- Every channel of every pixel fits in 8 bits. -/
def valid8 (f : Frame) : Bool :=
  f.all fun p => p.1 ≤ 255 && p.2.1 ≤ 255 && p.2.2 ≤ 255

/-- OpenCV BGR2GRAY luminance: fixed-point `0.299 R + 0.587 G + 0.114 B`
with 14-bit coefficients, rounded by adding `2^13` before the shift. -/
def luminance (p : Pixel) : ℕ :=
  (1868 * p.1 + 9617 * p.2.1 + 4899 * p.2.2 + 8192) / 16384

/-- `cv2.cvtColor(f, BGR2GRAY)` followed by `cv2.cvtColor(_, GRAY2BGR)`:
each pixel becomes its luminance replicated on all three channels
(webcam_server.py lines 106-107, webcam.py lines 108-109). -/
def desaturate (f : Frame) : Frame :=
  f.map fun p => (luminance p, luminance p, luminance p)

/-- `cv2.convertScaleAbs` over a whole frame, channel-wise. -/
def convertScaleAbsFrame (a : ℚ) (b : ℤ) (f : Frame) : Frame :=
  f.map fun p =>
    (convertScaleAbsPix a b p.1, convertScaleAbsPix a b p.2.1,
      convertScaleAbsPix a b p.2.2)

/-- The adjustment step of the capture loop (webcam_server.py lines
104-120): when night mode is on, desaturate the frame and override
brightness with `-5` and contrast with `1.3`; then apply
`cv2.convertScaleAbs(frame, alpha=contrast, beta=brightness * 2)`. -/
def adjust (f : Frame) (brightness : ℤ) (contrast : ℚ)
    (night_mode : Bool) : Frame :=
  let f2 := if night_mode then desaturate f else f
  let b : ℤ := if night_mode then -5 else brightness
  let c : ℚ := if night_mode then 13/10 else contrast
  convertScaleAbsFrame c (b * 2) f2

/-- The adjustment formula as the spec words it:
`clamp(input * contrast + brightness*2, 0, 255)` (spec section 4.2). Kept
separate from the code-derived `convertScaleAbsPix` to compare the two. -/
def specAdjustChannel (x : ℕ) (c : ℚ) (b : ℤ) : ℚ :=
  max 0 (min 255 ((x : ℚ) * c + (b : ℚ) * 2))

/-- All three channels of every pixel are equal (achromatic frame). -/
def achromFrame (f : Frame) : Bool :=
  f.all fun p => p.1 == p.2.1 && p.2.1 == p.2.2

/-- The night-mode pixel transform with the documented constants
(brightness `-5`, contrast `1.3`) spelled out. -/
def nightPixel (p : Pixel) : Pixel :=
  let v := convertScaleAbsPix (13/10) (-5 * 2) (luminance p)
  (v, v, v)

/-! ## Control state and its setters (webcam_server.py lines 233-272) -/

/-- The detection-model selector: the strings none, yolo and rfdetr. -/
inductive DetModel where
  | noneModel
  | yolo
  | rfdetr
deriving DecidableEq, Repr

/-- The control fields of the global `camera_state` dictionary. -/
structure ControlState where
  brightness : ℤ
  contrast : ℚ
  night_mode : Bool
  detection_model : DetModel
  detection_confidence : ℚ
deriving DecidableEq, Repr

/-- `set_brightness` (webcam_server.py lines 249-256): clamp the request
value with `max(-50, min(50, value))`, store it, and echo the stored
value back. -/
def set_brightness (st : ControlState) (value : ℤ) : ControlState × ℤ :=
  let v := max (-50) (min 50 value)
  ({ st with brightness := v }, v)

/-- `set_contrast` (webcam_server.py lines 258-265): clamp the request
value with `max(0.5, min(2.0, value))`, store it, and echo the stored
value back. -/
def set_contrast (st : ControlState) (value : ℚ) : ControlState × ℚ :=
  let v := max (1/2) (min 2 value)
  ({ st with contrast := v }, v)

/-- The brightness field of the `get_state` response (webcam_server.py
line 238): the stored value, unmodified. -/
def get_brightness (st : ControlState) : ℤ := st.brightness

/-- The contrast field of the `get_state` response (webcam_server.py
line 239): the stored value, unmodified. -/
def get_contrast (st : ControlState) : ℚ := st.contrast

/-! ## Snapshot capture (webcam_server.py lines 274-298)

The filesystem is modelled as the set of directories that exist and the
set of snapshot files that exist, a file being identified by its directory
and its sequence number (the files `capture_image` itself names
`frame_NNNN.jpg`). -/

/-- A filesystem path, as a list of components. -/
abbrev FsPath := List String

/-- The parts of the filesystem `capture_image` touches. -/
structure Fs where
  dirs : List FsPath
  files : List (FsPath × ℕ × List ℕ)
deriving DecidableEq

/-- The nonempty ancestor paths of `p`, shortest first (`p` itself last). -/
def pathAncestors (p : FsPath) : List FsPath :=
  (List.range p.length).map fun i => p.take (i + 1)

/-- `Path.mkdir(parents=True, exist_ok=True)`: create the directory and
every missing ancestor; a directory that already exists is left alone. -/
def mkdirParents (fs : Fs) (p : FsPath) : Fs :=
  { fs with
    dirs := fs.dirs ++ (pathAncestors p).filter (fun q => decide (q ∉ fs.dirs)) }

/-- The response of the `/api/capture` route. -/
structure CaptureResponse where
  success : Bool
  error : Option String
  filename : Option (FsPath × ℕ)
  status : ℕ
deriving DecidableEq

/-- `capture_image` (webcam_server.py lines 274-298): create the output
directory (with parents) first, then read the publish slot; if the frame
is truthy (`if frame:` — absent or empty bytes both fail), count the
existing snapshot files in the directory to pick the next sequence number
and write the frame there; otherwise answer success False with the
no-frame error message and status 500. -/
def capture_image (output_dir : FsPath) (slot : Option (List ℕ)) (fs : Fs) :
    CaptureResponse × Fs :=
  let fs1 := mkdirParents fs output_dir
  match slot with
  | some frame =>
    if frame.isEmpty then
      (⟨false, some "No frame available", none, 500⟩, fs1)
    else
      let next_num := (fs1.files.filter (fun e => e.1 = output_dir)).length
      (⟨true, none, some (output_dir, next_num), 200⟩,
        { fs1 with files := fs1.files ++ [(output_dir, next_num, frame)] })
  | none => (⟨false, some "No frame available", none, 500⟩, fs1)

/-! ## Stream publisher (webcam_server.py lines 206-218) -/

/-- ASCII bytes of a string literal. -/
def asciiBytes (s : String) : List ℕ := s.toList.map Char.toNat

/-- Decimal digit values of `n`, least significant first, empty for 0. -/
def digitsRev (n : ℕ) : List ℕ :=
  if n = 0 then [] else n % 10 :: digitsRev (n / 10)
termination_by n
decreasing_by exact Nat.div_lt_self (Nat.pos_of_ne_zero (by assumption)) (by norm_num)

/-- Python `str(n)` for a natural number, as ASCII bytes: most significant
digit first and no leading zeros, except that `0` renders as `"0"`. -/
def natDecimalAscii (n : ℕ) : List ℕ :=
  if n = 0 then [48] else ((digitsRev n).reverse).map (· + 48)

/-- Read a decimal numeral back from ASCII bytes. -/
def decodeDecimalAscii (l : List ℕ) : ℕ :=
  l.foldl (fun acc d => acc * 10 + (d - 48)) 0

/-- One chunk of the multipart stream, exactly as `generate_frames`
concatenates it (webcam_server.py lines 213-216). -/
def frameChunk (frame : List ℕ) : List ℕ :=
  asciiBytes "--frame\r\nContent-Type: image/jpeg\r\nContent-Length: "
    ++ natDecimalAscii frame.length
    ++ asciiBytes "\r\n\r\n" ++ frame ++ asciiBytes "\r\n"

/-- What one pass of the `generate_frames` loop body does. -/
inductive GenStep where
  | yieldChunk : List ℕ → GenStep
  | idleSleep : ℕ → GenStep
deriving DecidableEq

/-- One iteration of `generate_frames` (webcam_server.py lines 208-218):
read the slot under the lock; if a frame is present, yield its chunk,
otherwise sleep 10 milliseconds and yield nothing. -/
def generateFramesStep (slot : Option (List ℕ)) : GenStep :=
  match slot with
  | some frame => .yieldChunk (frameChunk frame)
  | none => .idleSleep 10

/-! ## Publish-slot interleavings (webcam_server.py lines 122-139, 144-204)

One capture iteration with an active detector stores its detections from
inside `run_detection` (line 163 / line 200) without holding the lock,
and only later publishes the encoded frame under the lock (lines
130-131). Readers read the slot under the lock, so each of these three
accesses is atomic with respect to the others; a schedule is any
interleaving of reader accesses with the program of the producer. Fields hold
the iteration number that produced them, `0` meaning the initial value. -/

/-- The publish slot, each field tagged by its producing iteration. -/
structure Slot where
  frame : ℕ
  dets : ℕ
deriving DecidableEq, Repr

/-- Atomic accesses to the publish slot. -/
inductive SlotOp where
  | wDets : ℕ → SlotOp
  | wFrame : ℕ → SlotOp
  | readSlot : SlotOp
deriving DecidableEq, Repr

/-- Run a schedule, collecting every reader observation. -/
def runSlotOps (s : Slot) : List SlotOp → Slot × List Slot
  | [] => (s, [])
  | .wDets k :: rest => runSlotOps { s with dets := k } rest
  | .wFrame k :: rest => runSlotOps { s with frame := k } rest
  | .readSlot :: rest =>
    let (s', obs) := runSlotOps s rest
    (s', s :: obs)

/-- The accesses the producer makes during iteration `k` with a detector active:
detections are stored inside `run_detection`, then the frame is published
under the lock. -/
def producerIter (k : ℕ) : List SlotOp := [.wDets k, .wFrame k]

/-- The accesses the producer makes over iterations `1..n`. -/
def producerProgram (n : ℕ) : List SlotOp :=
  (List.range n).flatMap fun i => producerIter (i + 1)

/-- Erase reader accesses from a schedule. -/
def eraseReads (t : List SlotOp) : List SlotOp :=
  t.filter fun o => o != SlotOp.readSlot

/-- A schedule is an interleaving of reads into the program of the producer. -/
def validSchedule (n : ℕ) (t : List SlotOp) : Bool :=
  eraseReads t == producerProgram n

/-- A schedule of two producer iterations with one reader access placed
after `run_detection` of iteration 2 stored its detections but before
iteration 2 published its frame. -/
def tornSchedule : List SlotOp :=
  [.wDets 1, .wFrame 1, .wDets 2, .readSlot, .wFrame 2]

/-! ## The two capture loops (webcam_server.py lines 99-141,
webcam.py lines 94-122) -/

/-- Status of the server capture loop and its device handle. -/
structure ServerLoopState where
  publishes : ℕ
  stopped : Bool
  released : Bool
deriving DecidableEq, Repr

/-- One iteration of the `capture_frames` while-loop (webcam_server.py
lines 99-141): if `running` has been cleared the loop exits and releases
the device; otherwise it reads a frame and, on failure, `continue`s —
no counter, no backoff, no exit — and on success publishes. The inputs
are the `running` flag and the read outcome seen that iteration. -/
def serverLoopStep (s : ServerLoopState) (running readOk : Bool) :
    ServerLoopState :=
  if s.stopped then s
  else if !running then { s with stopped := true, released := true }
  else if readOk then { s with publishes := s.publishes + 1 }
  else s

/-- Run the server capture loop over a sequence of
(`running` flag, read outcome) pairs. -/
def serverLoopRun (s : ServerLoopState) (steps : List (Bool × Bool)) :
    ServerLoopState :=
  steps.foldl (fun st p => serverLoopStep st p.1 p.2) s

/-- State of the CLI capture loop of webcam.py. -/
structure CliLoopState where
  frame_count : ℕ
  failed_count : ℕ
  sleeps : ℕ
  saves : ℕ
deriving DecidableEq, Repr

/-- Successful-read step of the CLI loop (webcam.py lines 104-120):
reset `failed_count` to zero, save the frame, advance `frame_count`. -/
def cliSucc (s : CliLoopState) : CliLoopState :=
  { s with
      frame_count := s.frame_count + 1
      failed_count := 0
      saves := s.saves + 1 }

/-- Failed-read step of the CLI loop (webcam.py lines 98-102): warn,
count the failure, back off for 0.1 s. -/
def cliFail (s : CliLoopState) : CliLoopState :=
  { s with failed_count := s.failed_count + 1, sleeps := s.sleeps + 1 }

/-- The `while frame_count < args.num_frames and failed_count < 3` loop of
webcam.py (lines 96-120), driven by a list of read outcomes; if the
outcomes run out the state so far is returned. -/
def cliLoopRun (numFrames : ℕ) : List Bool → CliLoopState → CliLoopState
  | [], s => s
  | o :: rest, s =>
    if s.frame_count < numFrames ∧ s.failed_count < 3 then
      if o then cliLoopRun numFrames rest (cliSucc s)
      else cliLoopRun numFrames rest (cliFail s)
    else s

/-- Device-handle events of a run of `main` (webcam.py lines 57-122):
one `cap.release()` after the loop, on every path out of it. -/
def cliReleaseEvents (numFrames : ℕ) (outcomes : List Bool) : ℕ :=
  let _ := cliLoopRun numFrames outcomes ⟨0, 0, 0, 0⟩
  1

/-! ## Control reads of one capture iteration (webcam_server.py lines
104-147)

`capture_frames` reads `camera_state` field by field: `night_mode` at
line 105; `brightness` and `contrast` at lines 116-117 only when night
mode is off; `detection_model` at line 123; and, when that check found an
active model, `run_detection` reads `detection_model` again at line 146
and `detection_confidence` at line 147. The list records those reads in
program order. -/

/-- The control fields of `camera_state`. -/
inductive CtrlVar where
  | night_mode
  | brightness
  | contrast
  | detection_model
  | detection_confidence
deriving DecidableEq, Repr

/-- The control reads one capture iteration performs, in program order,
given the values the two branch points saw: `night` is the value read for
`night_mode`, `active` is whether the `detection_model` read at line 123
differed from the string none. -/
def iterControlReads (night active : Bool) : List CtrlVar :=
  [.night_mode]
    ++ (if night then [] else [.brightness, .contrast])
    ++ [.detection_model]
    ++ (if active then [.detection_model, .detection_confidence] else [])

/-- Floor of a quotient of naturals inside ℚ is natural division. -/
theorem floor_natCast_div (m d : ℕ) :
    ⌊(m : ℚ) / (d : ℚ)⌋ = ((m / d : ℕ) : ℤ) := by
  rw [Rat.floor_natCast_div_natCast]
  exact (Int.ofNat_ediv m d).symm

/-- The executable rounding agrees with the mathematical rounding on
nonnegative fractions. -/
theorem cvRoundQ_natCast_div (m d : ℕ) (hd : 0 < d) :
    cvRoundQ ((m : ℚ) / (d : ℚ)) = (cvRoundNat m d : ℤ) := by
  have hdq : (0 : ℚ) < (d : ℚ) := by exact_mod_cast hd
  have hdq0 : (d : ℚ) ≠ 0 := ne_of_gt hdq
  have hsum : (d : ℚ) * ((m / d : ℕ) : ℚ) + ((m % d : ℕ) : ℚ) = (m : ℚ) := by
    exact_mod_cast congrArg (Nat.cast : ℕ → ℚ) (Nat.div_add_mod m d)
  have hfract : (m : ℚ) / d - (((m / d : ℕ) : ℤ) : ℚ)
      = ((m % d : ℕ) : ℚ) / d := by
    rw [Int.cast_natCast, eq_div_iff hdq0, sub_mul, div_mul_cancel₀ _ hdq0]
    linarith
  have hlt : (((m % d : ℕ) : ℚ) / d < 1/2) ↔ 2 * (m % d) < d := by
    rw [div_lt_div_iff₀ hdq (by norm_num : (0:ℚ) < 2)]
    constructor
    · intro h
      have : ((m % d : ℕ) : ℚ) * 2 < 1 * d := h
      have h2 : ((2 * (m % d) : ℕ) : ℚ) < ((d : ℕ) : ℚ) := by push_cast; linarith
      exact_mod_cast h2
    · intro h
      have h2 : ((2 * (m % d) : ℕ) : ℚ) < ((d : ℕ) : ℚ) := by exact_mod_cast h
      push_cast at h2
      linarith
  have hgt : (1/2 < ((m % d : ℕ) : ℚ) / d) ↔ d < 2 * (m % d) := by
    rw [div_lt_div_iff₀ (by norm_num : (0:ℚ) < 2) hdq]
    constructor
    · intro h
      have h2 : ((d : ℕ) : ℚ) < ((2 * (m % d) : ℕ) : ℚ) := by push_cast; linarith
      exact_mod_cast h2
    · intro h
      have h2 : ((d : ℕ) : ℚ) < ((2 * (m % d) : ℕ) : ℚ) := by exact_mod_cast h
      push_cast at h2
      linarith
  have hpar : ((((m / d : ℕ) : ℤ)) % 2 = 0) ↔ (m / d) % 2 = 0 := by
    omega
  unfold cvRoundQ cvRoundNat
  rw [floor_natCast_div, hfract]
  by_cases h1 : 2 * (m % d) < d
  · rw [if_pos (hlt.mpr h1), if_pos h1]
  · rw [if_neg (fun hc => h1 (hlt.mp hc)), if_neg h1]
    by_cases h2 : d < 2 * (m % d)
    · rw [if_pos (hgt.mpr h2), if_pos h2]
      push_cast
      ring
    · rw [if_neg (fun hc => h2 (hgt.mp hc)), if_neg h2]
      by_cases h3 : (m / d) % 2 = 0
      · rw [if_pos (hpar.mpr h3), if_pos h3]
      · rw [if_neg (fun hc => h3 (hpar.mp hc)), if_neg h3]
        push_cast
        ring

/-- The executable channel transform computes the rational-valued formula:
saturate the rounded absolute value of `x * alpha + beta` to `[0, 255]`. -/
theorem convertScaleAbsPix_eq_round (a : ℚ) (b : ℤ) (x : ℕ) :
    (convertScaleAbsPix a b x : ℤ)
      = min 255 (cvRoundQ |(x : ℚ) * a + (b : ℚ)|) := by
  have hden : (0 : ℚ) < (a.den : ℚ) := by exact_mod_cast a.pos
  have hden0 : (a.den : ℚ) ≠ 0 := ne_of_gt hden
  have hval : |(x : ℚ) * a + (b : ℚ)|
      = ((((x : ℤ) * a.num + b * (a.den : ℤ)).natAbs : ℕ) : ℚ)
          / (a.den : ℚ) := by
    have hx : (x : ℚ) * a + (b : ℚ)
        = (((x : ℤ) * a.num + b * (a.den : ℤ) : ℤ) : ℚ) / (a.den : ℚ) := by
      rw [eq_div_iff hden0]
      push_cast
      nth_rewrite 1 [← Rat.num_div_den a]
      field_simp
    rw [hx, abs_div, abs_of_pos hden, Int.cast_natAbs]
    push_cast
    ring_nf
  rw [hval, cvRoundQ_natCast_div _ _ a.pos]
  unfold convertScaleAbsPix
  push_cast [Nat.cast_min]
  ring_nf

/-- ℕ-valued form of `convertScaleAbsPix_eq_round`. -/
theorem convertScaleAbsPix_toNat (a : ℚ) (b : ℤ) (x : ℕ) :
    convertScaleAbsPix a b x
      = (min 255 (cvRoundQ |(x : ℚ) * a + (b : ℚ)|)).toNat := by
  have h := congrArg Int.toNat (convertScaleAbsPix_eq_round a b x)
  simpa using h

/-- At contrast 1 and brightness 0 the channel transform only saturates. -/
theorem convertScaleAbsPix_id (x : ℕ) : convertScaleAbsPix 1 0 x = min 255 x := by
  simp [convertScaleAbsPix, cvRoundNat, Nat.mod_one]

/-- At contrast 1 and brightness 0 the frame transform is the identity on
8-bit frames. -/
theorem convertScaleAbsFrame_id (f : Frame) (h : valid8 f = true) :
    convertScaleAbsFrame 1 0 f = f := by
  induction f with
  | nil => rfl
  | cons p t ih =>
    rw [valid8, List.all_cons, Bool.and_eq_true] at h
    obtain ⟨hp, ht⟩ := h
    simp only [Bool.and_eq_true, decide_eq_true_eq] at hp
    obtain ⟨⟨q1, q2⟩, q3⟩ := hp
    have hpix : (convertScaleAbsPix 1 0 p.1, convertScaleAbsPix 1 0 p.2.1,
        convertScaleAbsPix 1 0 p.2.2) = p := by
      rw [convertScaleAbsPix_id, convertScaleAbsPix_id, convertScaleAbsPix_id,
        min_eq_right q1, min_eq_right q2, min_eq_right q3]
    have htail := ih ht
    simp only [convertScaleAbsFrame, List.map_cons]
    simp only [convertScaleAbsFrame] at htail
    rw [hpix, htail]

/-- C9: with brightness 0, contrast 1.0 and night mode off, adjustment is
the identity transform on 8-bit frames. -/
theorem c9_identity (f : Frame) (h : valid8 f = true) :
    adjust f 0 1 false = f := by
  have hid := convertScaleAbsFrame_id f h
  simpa [adjust] using hid

/-- Witness for `c9_identity` at a concrete three-pixel frame. -/
theorem c9_identity_witness :
    valid8 [(0, 128, 255), (7, 7, 7), (255, 0, 1)] = true
    ∧ adjust [(0, 128, 255), (7, 7, 7), (255, 0, 1)] 0 1 false
        = [(0, 128, 255), (7, 7, 7), (255, 0, 1)] :=
  ⟨by decide, c9_identity _ (by decide)⟩

/-- C1 counterexample: at the 8-bit pixel 0, contrast 1 in `[0.5, 2.0]`
and brightness -50 in `[-50, 50]` with night mode off, the code produces
channel value 100 (absolute value then saturation) while the spec formula
`clamp(input*contrast + brightness*2, 0, 255)` gives 0. -/
theorem c1_clamp_counterexample :
    adjust [(0, 0, 0)] (-50) 1 false = [(100, 100, 100)]
    ∧ specAdjustChannel 0 1 (-50) = 0
    ∧ (100 : ℚ) ≠ 0
    ∧ (1/2 : ℚ) ≤ 1 ∧ (1 : ℚ) ≤ 2 ∧ (-50 : ℤ) ≤ -50 ∧ (-50 : ℤ) ≤ 50
    ∧ valid8 [(0, 0, 0)] = true := by
  refine ⟨by decide, ?_, by norm_num, by norm_num, by norm_num, by norm_num,
    by norm_num, by decide⟩
  rw [specAdjustChannel]
  norm_num

/-- C1 (amended): with night mode off, contrast in `[0.5, 2.0]` and
brightness in `[-50, 50]`, each output channel equals
`min(255, round(|input * contrast + brightness*2|))`: the saturation is
applied to the absolute value, there is no clamp at 0 before it. -/
theorem c1_saturated_abs (f : Frame) (c : ℚ) (b : ℤ)
    (_hc1 : 1/2 ≤ c) (_hc2 : c ≤ 2) (_hb1 : -50 ≤ b) (_hb2 : b ≤ 50)
    (_hf : valid8 f = true) :
    adjust f b c false = f.map fun p =>
      ((min 255 (cvRoundQ |(p.1 : ℚ) * c + (b : ℚ) * 2|)).toNat,
        (min 255 (cvRoundQ |(p.2.1 : ℚ) * c + (b : ℚ) * 2|)).toNat,
        (min 255 (cvRoundQ |(p.2.2 : ℚ) * c + (b : ℚ) * 2|)).toNat) := by
  have hpix : ∀ x : ℕ, convertScaleAbsPix c (b * 2) x
      = (min 255 (cvRoundQ |(x : ℚ) * c + (b : ℚ) * 2|)).toNat := by
    intro x
    rw [convertScaleAbsPix_toNat]
    norm_num
  simp only [adjust, convertScaleAbsFrame, Bool.false_eq_true, if_false]
  simp only [hpix]

/-- Witness for `c1_saturated_abs` at the input of the counterexample. -/
theorem c1_saturated_abs_witness :
    ((1/2 : ℚ) ≤ 1 ∧ (1 : ℚ) ≤ 2 ∧ (-50 : ℤ) ≤ -50 ∧ (-50 : ℤ) ≤ 50
      ∧ valid8 [(0, 0, 0)] = true)
    ∧ adjust [(0, 0, 0)] (-50) 1 false = [((0 : ℕ), (0 : ℕ), (0 : ℕ))].map
        (fun p =>
          ((min 255 (cvRoundQ |(p.1 : ℚ) * 1 + ((-50 : ℤ) : ℚ) * 2|)).toNat,
            (min 255 (cvRoundQ |(p.2.1 : ℚ) * 1 + ((-50 : ℤ) : ℚ) * 2|)).toNat,
            (min 255
              (cvRoundQ |(p.2.2 : ℚ) * 1 + ((-50 : ℤ) : ℚ) * 2|)).toNat)) :=
  ⟨⟨by norm_num, by norm_num, by norm_num, by norm_num, by decide⟩,
    c1_saturated_abs _ 1 (-50) (by norm_num) (by norm_num) (by norm_num)
      (by norm_num) (by decide)⟩

/-- C5: with night mode on, adjustment ignores the caller-supplied
brightness and contrast, equals the per-pixel night transform built from
the documented constants (brightness `-5`, contrast `1.3`) applied to the
desaturated luminance, and its output is achromatic. -/
theorem c5_night_mode (f : Frame) (b b' : ℤ) (c c' : ℚ) :
    adjust f b c true = adjust f b' c' true
    ∧ adjust f b c true = f.map nightPixel
    ∧ achromFrame (adjust f b c true) = true := by
  refine ⟨rfl, ?_, ?_⟩
  · simp [adjust, desaturate, convertScaleAbsFrame, nightPixel,
      List.map_map, Function.comp]
  · simp [achromFrame, adjust, desaturate, convertScaleAbsFrame,
      List.all_map, List.map_map, Function.comp]

/-- Clamping by `max lo (min hi v)` is the nearest-boundary clamp. -/
theorem clamp_ite {α : Type*} [LinearOrder α] (lo hi v : α) (h : lo ≤ hi) :
    max lo (min hi v) = if v < lo then lo else if hi < v then hi else v := by
  rcases lt_or_le v lo with h1 | h1
  · rw [if_pos h1, min_eq_right (le_of_lt (lt_of_lt_of_le h1 h)),
      max_eq_left (le_of_lt h1)]
  · rw [if_neg (not_lt.mpr h1)]
    rcases lt_or_le hi v with h2 | h2
    · rw [if_pos h2, min_eq_left (le_of_lt h2), max_eq_right h]
    · rw [if_neg (not_lt.mpr h2), min_eq_right h2, max_eq_right h1]

/-- C7: set-brightness stores the input when it lies in `[-50, 50]` and
the nearest boundary otherwise; set-contrast does the same over
`[0.5, 2.0]`; and a get after a set returns exactly the stored clamped
value. -/
theorem c7_setter_clamp (st : ControlState) (v : ℤ) (w : ℚ) :
    (set_brightness st v).2
        = (if v < -50 then -50 else if 50 < v then 50 else v)
    ∧ get_brightness (set_brightness st v).1 = (set_brightness st v).2
    ∧ (set_contrast st w).2
        = (if w < 1/2 then 1/2 else if 2 < w then 2 else w)
    ∧ get_contrast (set_contrast st w).1 = (set_contrast st w).2 := by
  refine ⟨?_, rfl, ?_, rfl⟩
  · simpa [set_brightness] using clamp_ite (-50 : ℤ) 50 v (by norm_num)
  · simpa [set_contrast] using clamp_ite (1/2 : ℚ) 2 w (by norm_num)

/-- Reading back the reversed digit list recovers the number. -/
theorem decodeDigits_digitsRev (n : ℕ) :
    List.foldl (fun a d => a * 10 + d) 0 (digitsRev n).reverse = n := by
  induction n using Nat.strong_induction_on with
  | _ n ih =>
    by_cases h : n = 0
    · subst h
      rw [digitsRev]
      simp
    · rw [digitsRev, if_neg h, List.reverse_cons, List.foldl_append,
        ih (n / 10) (Nat.div_lt_self (Nat.pos_of_ne_zero h) (by norm_num))]
      simp only [List.foldl_cons, List.foldl_nil]
      omega

/-- Decoding the decimal rendering of `n` yields `n` back: the numeral in
the Content-Length header of a chunk denotes exactly the number it
encodes. -/
theorem decode_natDecimalAscii (n : ℕ) :
    decodeDecimalAscii (natDecimalAscii n) = n := by
  by_cases h : n = 0
  · subst h
    rfl
  · rw [natDecimalAscii, if_neg h, decodeDecimalAscii, List.foldl_map]
    have hfun : (fun (acc : ℕ) (d : ℕ) => acc * 10 + (d + 48 - 48))
        = fun acc d => acc * 10 + d := by
      funext a d
      omega
    rw [hfun, decodeDigits_digitsRev]

/-- All entries of `digitsRev` are decimal digits. -/
theorem digitsRev_lt_ten (n : ℕ) : ∀ d ∈ digitsRev n, d < 10 := by
  induction n using Nat.strong_induction_on with
  | _ n ih =>
    intro d hd
    by_cases h : n = 0
    · rw [h, digitsRev] at hd
      simp at hd
    · rw [digitsRev, if_neg h] at hd
      rcases List.mem_cons.mp hd with h1 | h1
      · subst h1
        exact Nat.mod_lt _ (by norm_num)
      · exact ih (n / 10)
          (Nat.div_lt_self (Nat.pos_of_ne_zero h) (by norm_num)) d h1

/-- Every byte of the decimal rendering is an ASCII digit. -/
theorem natDecimalAscii_isDigit (n : ℕ) :
    (natDecimalAscii n).all (fun d => 48 ≤ d && d ≤ 57) = true := by
  rw [natDecimalAscii]
  by_cases h : n = 0
  · rw [if_pos h]
    decide
  · rw [if_neg h, List.all_eq_true]
    intro d hd
    rw [List.mem_map] at hd
    obtain ⟨e, he, rfl⟩ := hd
    have he10 : e < 10 := digitsRev_lt_ten n e (List.mem_reverse.mp he)
    simp only [Bool.and_eq_true, decide_eq_true_eq]
    omega

/-- C8: with a frame in the slot, the generator yields exactly the
multipart chunk—the fixed boundary and headers, the decimal
`Content-Length` numeral whose digits decode to the byte length of the
payload, the blank line, the payload, and a trailing CRLF; with no frame
it sleeps 10 ms and yields nothing. -/
theorem c8_stream_chunk (f : List ℕ) :
    generateFramesStep (some f) = GenStep.yieldChunk
      (asciiBytes "--frame\r\nContent-Type: image/jpeg\r\nContent-Length: "
        ++ natDecimalAscii f.length ++ asciiBytes "\r\n\r\n" ++ f
        ++ asciiBytes "\r\n")
    ∧ decodeDecimalAscii (natDecimalAscii f.length) = f.length
    ∧ (natDecimalAscii f.length).all (fun d => 48 ≤ d && d ≤ 57) = true
    ∧ generateFramesStep none = GenStep.idleSleep 10 :=
  ⟨rfl, decode_natDecimalAscii f.length, natDecimalAscii_isDigit f.length, rfl⟩

/-- C6: a snapshot request served while the publish slot holds no frame
answers success false with the no-frame error message, status 500,
names no file, and writes no file. -/
theorem c6_no_frame_available (d : FsPath) (fs : Fs) :
    (capture_image d none fs).1.success = false
    ∧ (capture_image d none fs).1.error = some "No frame available"
    ∧ (capture_image d none fs).1.status = 500
    ∧ (capture_image d none fs).1.filename = none
    ∧ (capture_image d none fs).2.files = fs.files :=
  ⟨rfl, rfl, rfl, rfl, rfl⟩

/-- A nonempty path is among its own ancestors. -/
theorem pathAncestors_self (d : FsPath) (hd : d ≠ []) :
    d ∈ pathAncestors d := by
  rw [pathAncestors, List.mem_map]
  have hpos : 0 < d.length := List.length_pos.mpr hd
  refine ⟨d.length - 1, List.mem_range.mpr (by omega), ?_⟩
  have harith : d.length - 1 + 1 = d.length := by omega
  rw [harith, List.take_length]

/-- C10: `capture_image` creates the output directory (with parents)
before it looks at the publish slot, so whatever the slot holds the
directories afterwards are those of `mkdirParents`; in particular a
request that fails with the no-frame error on a not-yet-existing
directory still creates it and leaves the filesystem changed. -/
theorem c10_mkdir_before_frame_check (d : FsPath) (fs : Fs)
    (slot : Option (List ℕ)) (hd : d ≠ []) (hnew : d ∉ fs.dirs) :
    (capture_image d slot fs).2.dirs = (mkdirParents fs d).dirs
    ∧ d ∈ (capture_image d none fs).2.dirs
    ∧ (capture_image d none fs).2 ≠ fs
    ∧ (capture_image d none fs).1.success = false := by
  have hmem : d ∈ (mkdirParents fs d).dirs := by
    rw [mkdirParents]
    simp only [List.mem_append, List.mem_filter, decide_eq_true_eq]
    exact Or.inr ⟨pathAncestors_self d hd, hnew⟩
  refine ⟨?_, hmem, ?_, rfl⟩
  · cases slot with
    | none => rfl
    | some frame =>
      by_cases hf : frame.isEmpty <;> simp [capture_image, hf]
  · intro hcontra
    have hdirs := congrArg Fs.dirs hcontra
    have hmem' : d ∈ (capture_image d none fs).2.dirs := hmem
    rw [hdirs] at hmem'
    exact hnew hmem'

/-- Witness for `c10_mkdir_before_frame_check` on an empty filesystem. -/
theorem c10_mkdir_before_frame_check_witness :
    ((["frames"] : FsPath) ≠ [] ∧ (["frames"] : FsPath) ∉ (Fs.mk [] []).dirs)
    ∧ ((capture_image ["frames"] none (Fs.mk [] [])).2.dirs
          = (mkdirParents (Fs.mk [] []) ["frames"]).dirs
        ∧ ["frames"] ∈ (capture_image ["frames"] none (Fs.mk [] [])).2.dirs
        ∧ (capture_image ["frames"] none (Fs.mk [] [])).2 ≠ Fs.mk [] []
        ∧ (capture_image ["frames"] none (Fs.mk [] [])).1.success = false) :=
  ⟨⟨by decide, by decide⟩,
    c10_mkdir_before_frame_check ["frames"] (Fs.mk [] []) none (by decide)
      (by decide)⟩

/-- C2 refuted: `tornSchedule` is a legal interleaving of two producer
iterations (erasing the read leaves exactly the program of the producer), yet
its reader observes the frame of iteration 1 paired with the detections
of iteration 2 — reachable because `run_detection` stores detections
without the lock before the frame is published under it. -/
theorem c2_torn_publish_reachable :
    validSchedule 2 tornSchedule = true
    ∧ (runSlotOps ⟨0, 0⟩ tornSchedule).2 = [⟨1, 2⟩]
    ∧ (1 : ℕ) ≠ 2 := by
  decide

/-- C3 refuted for the server loop: after 100 consecutive read failures
(far beyond any small budget — the budget used by webcam.py is 3) the
`capture_frames` loop has not terminated, has released nothing, and has
published nothing: `if not ret: continue` retries forever. -/
theorem c3_server_retries_forever :
    (serverLoopRun ⟨0, false, false⟩
        (List.replicate 100 (true, false))).stopped = false
    ∧ (serverLoopRun ⟨0, false, false⟩
        (List.replicate 100 (true, false))).released = false
    ∧ (serverLoopRun ⟨0, false, false⟩
        (List.replicate 100 (true, false))).publishes = 0
    ∧ 3 < 100 := by
  decide

/-- C3 (amended): in the CLI loop of webcam.py a failed read below the budget
backs off and retries with the counter up by one, a successful read
resets the counter to zero, a state that has reached 3 consecutive
failures terminates the loop immediately whatever outcomes remain, and
the device handle is released exactly once after the loop. -/
theorem c3_cli_failure_budget (n : ℕ) (rest : List Bool) (s : CliLoopState)
    (hf : s.frame_count < n) (hb : s.failed_count < 3) :
    cliLoopRun n (false :: rest) s = cliLoopRun n rest (cliFail s)
    ∧ cliLoopRun n (true :: rest) s = cliLoopRun n rest (cliSucc s)
    ∧ (cliSucc s).failed_count = 0
    ∧ (cliFail s).failed_count = s.failed_count + 1
    ∧ (cliFail s).sleeps = s.sleeps + 1
    ∧ (∀ outs : List Bool, ∀ s' : CliLoopState, s'.failed_count = 3 →
        cliLoopRun n outs s' = s')
    ∧ cliReleaseEvents n rest = 1 := by
  refine ⟨?_, ?_, rfl, rfl, rfl, ?_, rfl⟩
  · simp [cliLoopRun, hf, hb]
  · simp [cliLoopRun, hf, hb]
  · intro outs s' h3
    cases outs with
    | nil => rfl
    | cons o rest' =>
      rw [cliLoopRun, if_neg]
      rw [h3]
      exact fun hc => absurd hc.2 (by norm_num)

/-- Witness for `c3_cli_failure_budget` at a fresh loop state. -/
theorem c3_cli_failure_budget_witness :
    ((0 : ℕ) < 1 ∧ (0 : ℕ) < 3)
    ∧ (cliLoopRun 1 [false] ⟨0, 0, 0, 0⟩ = cliLoopRun 1 [] (cliFail ⟨0, 0, 0, 0⟩)
        ∧ cliLoopRun 1 [true] ⟨0, 0, 0, 0⟩
            = cliLoopRun 1 [] (cliSucc ⟨0, 0, 0, 0⟩)
        ∧ (cliSucc ⟨0, 0, 0, 0⟩).failed_count = 0
        ∧ (cliFail ⟨0, 0, 0, 0⟩).failed_count
            = (CliLoopState.mk 0 0 0 0).failed_count + 1
        ∧ (cliFail ⟨0, 0, 0, 0⟩).sleeps = (CliLoopState.mk 0 0 0 0).sleeps + 1
        ∧ (∀ outs : List Bool, ∀ s' : CliLoopState, s'.failed_count = 3 →
            cliLoopRun 1 outs s' = s')
        ∧ cliReleaseEvents 1 [] = 1) :=
  ⟨⟨by decide, by decide⟩,
    c3_cli_failure_budget 1 [] ⟨0, 0, 0, 0⟩ (by decide) (by decide)⟩

/-- C4 refuted: in an iteration with night mode off and an active
detector, `detection_model` is read twice — once for the activity check
at line 123 and once again inside `run_detection` at line 146 — so it is
not read exactly once. -/
theorem c4_detection_model_reread :
    (iterControlReads false true).count CtrlVar.detection_model = 2
    ∧ ¬ (iterControlReads false true).count CtrlVar.detection_model = 1 := by
  decide

/-- C4 (amended): per iteration, `night_mode` is read once; `brightness`
and `contrast` are read once each only when night mode is off (night mode
substitutes constants without reading them); `detection_model` is read
twice when detection is active and once otherwise; and
`detection_confidence` is read only inside the detection step. The reads
are separate accesses spread across the iteration, not one snapshot. -/
theorem c4_per_iteration_read_counts (night active : Bool) :
    (iterControlReads night active).count CtrlVar.night_mode = 1
    ∧ (iterControlReads night active).count CtrlVar.brightness
        = (if night then 0 else 1)
    ∧ (iterControlReads night active).count CtrlVar.contrast
        = (if night then 0 else 1)
    ∧ (iterControlReads night active).count CtrlVar.detection_model
        = (if active then 2 else 1)
    ∧ (iterControlReads night active).count CtrlVar.detection_confidence
        = (if active then 1 else 0) := by
  cases night <;> cases active <;> decide

end Cctv
